import Mathlib

/-!
# Expense Query & Summary Engine — verification development

Shallow embedding of the expense-tracker backend's cached query/aggregation
subsystem (expense repository, expense service, redis cache adapter, date
helpers), together with theorems settling the specification claims about it.

Modelling conventions:
* MongoDB ObjectIds are modelled by their 24-hex-character string form;
  `ObjectId.isValid` on strings is modelled as the 24-hex-digit check.
* Timestamps are epoch milliseconds (`Nat`); day boundaries are at multiples
  of 86400000 ms (the runtime's local-time offset is abstracted away).
* Monetary amounts are modelled as integers (ideal arithmetic; the claims
  concern the aggregation algorithm, not floating-point rounding).
* The persisted collection is a list of documents in insertion order.
  A Mongo `find().sort({createdAt:-1})` specifies only the `createdAt` key,
  leaving the relative order of equal timestamps to the collection; this is
  modelled by a stable insertion sort on the collection order.
* Values that travel through the cache are modelled at the JSON-tree level
  (`JVal`): `JSON.stringify`/`JSON.parse` of the runtime are abstracted as
  the identity round-trip on JSON trees, and `Date` fields are rendered to
  their JSON string form by an environment-supplied formatter.
-/

namespace ExpenseTracker

/-- A character is a hexadecimal digit (`0-9a-fA-F`). -/
def isHexDigit (c : Char) : Bool :=
  (('0' ≤ c) && (c ≤ '9')) || (('a' ≤ c) && (c ≤ 'f')) || (('A' ≤ c) && (c ≤ 'F'))

/-- `ObjectId.isValid` of the bson library, on strings: a structurally valid
identifier is exactly 24 hexadecimal characters. -/
def isValidObjectId (s : String) : Bool :=
  s.length == 24 && s.data.all isHexDigit

/-- The closed seven-value expense category enumeration
(`models/expense-category`). -/
inductive ExpenseCategory where
  | groceries | leisure | electronics | utilities | clothing | health | others
deriving DecidableEq, Repr

/-- The string value of each enum member (`ExpenseCategory` string enum). -/
def categoryName : ExpenseCategory → String
  | .groceries => "Groceries"
  | .leisure => "Leisure"
  | .electronics => "Electronics"
  | .utilities => "Utilities"
  | .clothing => "Clothing"
  | .health => "Health"
  | .others => "Others"

/-- A persisted expense document (`models/expense.ts`, interface `Expense`).
`_id` and `userId` are ObjectIds, modelled by their hex strings. -/
structure Expense where
  _id : String
  userId : String
  title : String
  description : Option String
  amount : Int
  category : ExpenseCategory
  createdAt : Nat
  updatedAt : Nat
deriving DecidableEq, Repr

/-- `CreateExpenseDto`: the pre-validated fields of a new expense. -/
structure CreateExpenseDto where
  title : String
  description : Option String
  amount : Int
  category : ExpenseCategory
deriving DecidableEq, Repr

/-- `UpdateExpenseDto`: partial update; `none` = field absent from the DTO. -/
structure UpdateExpenseDto where
  title : Option String
  description : Option String
  amount : Option Int
  category : Option ExpenseCategory
deriving DecidableEq, Repr

/-- `ExpenseFilter` (`models/expense.ts`): the shape handed to
`ExpenseRepository.findWithFilters`. -/
structure ExpenseFilter where
  userId : String
  startDate : Option Nat
  endDate : Option Nat
  category : Option ExpenseCategory
  limit : Option Nat
  offset : Option Nat
deriving DecidableEq, Repr

/-- `ExpenseSummary` (`models/expense.ts`). -/
structure CategoryBreakdownEntry where
  category : ExpenseCategory
  amount : Int
  count : Nat
deriving DecidableEq, Repr

/-- The summary returned by `ExpenseRepository.getSummary`. -/
structure ExpenseSummary where
  totalAmount : Int
  totalCount : Nat
  categoryBreakdown : List CategoryBreakdownEntry
deriving DecidableEq, Repr

/-- `ApiError` (`models/api-response`): message plus HTTP-equivalent status. -/
structure ApiErr where
  message : String
  statusCode : Nat
deriving DecidableEq, Repr

/-- JavaScript `x || d` on an optional numeric field: `0` is falsy, so a
present `0` still selects the default (`filters.limit || 20`). -/
def jsOrNat (x : Option Nat) (d : Nat) : Nat :=
  match x with
  | some v => if v = 0 then d else v
  | none => d

namespace ExpenseRepository

/-- The query predicate built by `findWithFilters`: exact `userId` match,
`createdAt ≥ startDate` / `≤ endDate` when bounds are present, exact
`category` match when present. -/
def matchesFilter (f : ExpenseFilter) (e : Expense) : Bool :=
  decide (e.userId = f.userId)
  && (match f.startDate with | some s => decide (s ≤ e.createdAt) | none => true)
  && (match f.endDate with | some t => decide (e.createdAt ≤ t) | none => true)
  && (match f.category with | some c => decide (e.category = c) | none => true)

/-- `sort({ createdAt: -1 })`: newest first. The sort key is only the
creation timestamp; equal timestamps keep the collection (insertion) order,
modelled by a stable insertion sort. -/
def createdAtGe (a b : Expense) : Prop := b.createdAt ≤ a.createdAt

instance : DecidableRel createdAtGe := fun a b => Nat.decLe b.createdAt a.createdAt

instance : IsTotal Expense createdAtGe := ⟨fun a b => Nat.le_total b.createdAt a.createdAt⟩

instance : IsTrans Expense createdAtGe := ⟨fun _ _ _ h1 h2 => Nat.le_trans h2 h1⟩

/-- The sorted matching documents for a `find(query).sort({createdAt:-1})`. -/
def sortedMatches (store : List Expense) (f : ExpenseFilter) : List Expense :=
  List.insertionSort createdAtGe (store.filter (matchesFilter f))

/-- `ExpenseRepository.findWithFilters`: builds the query, retrieves the page
(`skip = offset`, `limit = limit`, JS-falsy defaults 20 / 0) sorted by
`createdAt` descending, and counts all matching documents unbounded by the
page. Returns `(expenses, total)`. -/
def findWithFilters (store : List Expense) (f : ExpenseFilter) :
    List Expense × Nat :=
  let limit := jsOrNat f.limit 20
  let offset := jsOrNat f.offset 0
  ((sortedMatches store f).drop offset |>.take limit,
   (store.filter (matchesFilter f)).length)

/-- `ExpenseRepository.findById`: `null` for a structurally invalid id,
otherwise `findOne({_id})` = first document with that id. -/
def findById (store : List Expense) (id : String) : Option Expense :=
  if isValidObjectId id then store.find? (fun e => decide (e._id = id)) else none

/-- `ExpenseRepository.create`: rejects a structurally invalid `userId` with
`ApiError('Invalid user ID', 400)`; inserts the document with both timestamps
set to now; fails 500 if the driver reports no `insertedId` (modelled by the
`insertedId` parameter, the id the driver assigns); reads the created
document back by id and fails 500 if that read returns nothing. Returns the
updated collection and the read-back document. -/
def create (store : List Expense) (userId : String) (d : CreateExpenseDto)
    (now : Nat) (insertedId : Option String) :
    Except ApiErr (List Expense × Expense) :=
  if ¬ isValidObjectId userId then .error ⟨"Invalid user ID", 400⟩
  else
    match insertedId with
    | none => .error ⟨"Failed to create expense", 500⟩
    | some nid =>
      let doc : Expense :=
        { _id := nid, userId := userId, title := d.title,
          description := d.description, amount := d.amount,
          category := d.category, createdAt := now, updatedAt := now }
      let store' := store ++ [doc]
      match findById store' nid with
      | none => .error ⟨"Failed to retrieve created expense", 500⟩
      | some created => .ok (store', created)

/-- `$set: { ...updates, updatedAt: now }`: only fields present in the DTO
are replaced; `updatedAt` is always bumped. -/
def applyUpdates (u : UpdateExpenseDto) (now : Nat) (e : Expense) : Expense :=
  { e with
    title := u.title.getD e.title,
    description := match u.description with | some d => some d | none => e.description,
    amount := u.amount.getD e.amount,
    category := u.category.getD e.category,
    updatedAt := now }

/-- `findOneAndUpdate` over the list: update the first document satisfying
the predicate, returning the post-update document. -/
def updateFirst (p : Expense → Bool) (upd : Expense → Expense) :
    List Expense → List Expense × Option Expense
  | [] => ([], none)
  | e :: es =>
    if p e then (upd e :: es, some (upd e))
    else
      let r := updateFirst p upd es
      (e :: r.1, r.2)

/-- `deleteOne` over the list: remove the first document satisfying the
predicate; the boolean reports whether one was removed. -/
def deleteFirst (p : Expense → Bool) : List Expense → List Expense × Bool
  | [] => ([], false)
  | e :: es =>
    if p e then (es, true)
    else
      let r := deleteFirst p es
      (e :: r.1, r.2)

/-- `ExpenseRepository.updateByIdAndUserId`: `null` for structurally invalid
ids; otherwise `findOneAndUpdate({_id, userId}, {$set: {...updates,
updatedAt: now}}, {returnDocument: 'after'})` — the match predicate requires
both the expense id and the owning-user id. -/
def updateByIdAndUserId (store : List Expense) (id userId : String)
    (u : UpdateExpenseDto) (now : Nat) : List Expense × Option Expense :=
  if ¬ (isValidObjectId id ∧ isValidObjectId userId) then (store, none)
  else updateFirst (fun e => decide (e._id = id) && decide (e.userId = userId))
    (applyUpdates u now) store

/-- `ExpenseRepository.deleteByIdAndUserId`: `false` for structurally invalid
ids; otherwise `deleteOne({_id, userId})`, `true` iff one document was
removed. -/
def deleteByIdAndUserId (store : List Expense) (id userId : String) :
    List Expense × Bool :=
  if ¬ (isValidObjectId id ∧ isValidObjectId userId) then (store, false)
  else deleteFirst (fun e => decide (e._id = id) && decide (e.userId = userId)) store

/-- The `$match` stage of `getSummary`: owning user plus the optional
inclusive `createdAt` range (no category filter, no pagination). -/
def summaryMatches (userId : String) (sd ed : Option Nat) (e : Expense) : Bool :=
  decide (e.userId = userId)
  && (match sd with | some s => decide (s ≤ e.createdAt) | none => true)
  && (match ed with | some t => decide (e.createdAt ≤ t) | none => true)

/-- `ExpenseRepository.getSummary`: denotation of the four-stage aggregation
pipeline (`$match` → `$group` into one document carrying `totalAmount`,
`totalCount` and the `(category, amount)` pairs → `$unwind`/`$group` →
`$project` with `$setUnion` of the categories and a per-category
`$filter`/`$sum`/`$size`). Over an empty match set the `$group` stage emits
no document, so the aggregate returns no rows and the method returns the
all-zero summary. A structurally invalid `userId` raises
`ApiError('Invalid user ID', 400)`. -/
def getSummary (store : List Expense) (userId : String) (sd ed : Option Nat) :
    Except ApiErr ExpenseSummary :=
  if ¬ isValidObjectId userId then .error ⟨"Invalid user ID", 400⟩
  else
    let matched := store.filter (summaryMatches userId sd ed)
    if matched.isEmpty then .ok ⟨0, 0, []⟩
    else .ok
      { totalAmount := (matched.map (·.amount)).sum,
        totalCount := matched.length,
        categoryBreakdown :=
          (matched.map (·.category)).dedup.map (fun c =>
            { category := c,
              amount := ((matched.filter (fun e => decide (e.category = c))).map (·.amount)).sum,
              count := (matched.filter (fun e => decide (e.category = c))).length }) }

end ExpenseRepository

/-! ## JSON trees, the cache adapter and cache keys -/

/-- A JSON value. Cached payloads are modelled at this level: the runtime's
`JSON.stringify`/`JSON.parse` pair is abstracted as the identity round-trip
on JSON trees (object fields are kept in their construction order, matching
`JSON.stringify`'s property order). -/
inductive JVal where
  | jstr : String → JVal
  | jnum : Int → JVal
  | jarr : List JVal → JVal
  | jobj : List (String × JVal) → JVal

/-- The redis database content: key/value entries, most recent first. -/
abbrev Cache := List (String × JVal)

/-- The redis client state: `none` models a client that is not connected
(every operation on it raises), `some c` a reachable cache holding `c`. -/
abbrev RedisState := Option Cache

/-- Value stored under a key, if any (`GET`). -/
def getEntry (c : Cache) (k : String) : Option JVal :=
  (List.find? (fun e => decide (e.1 = k)) c).map (·.2)

/-- `SET` (with TTL): the new entry shadows any previous one. Expiry is not
modelled; the claims concern reads within the TTL window. -/
def setEntry (c : Cache) (k : String) (v : JVal) : Cache :=
  (k, v) :: c

/-- Redis glob match, written on character lists. Only literal characters
and `*` appear in the patterns this codebase issues. -/
def patMatch : List Char → List Char → Bool
  | [], s => s.isEmpty
  | c :: p, s =>
    if c = '*' then s.tails.any (fun t => patMatch p t)
    else
      match s with
      | [] => false
      | a :: s' => c == a && patMatch p s' 

/-- `RedisClient.deletePattern`: enumerate the keys matching the glob and
delete them (no-op when none match). -/
def deletePattern (c : Cache) (pat : String) : Cache :=
  c.filter (fun e => ! patMatch pat.data e.1.data)

/-- `RedisClient.getJson` on a given state: raises when not connected,
otherwise returns the parsed stored value (absent key ⇒ `none`). -/
def getJsonE (redis : RedisState) (k : String) : Except String (Option JVal) :=
  match redis with
  | none => .error "Redis not connected"
  | some c => .ok (getEntry c k)

/-- `RedisClient.setJson` on a given state: raises when not connected. -/
def setJsonE (redis : RedisState) (k : String) (v : JVal) (_ttlSeconds : Nat) :
    Except String RedisState :=
  match redis with
  | none => .error "Redis not connected"
  | some c => .ok (some (setEntry c k v))

/-- Standard base64 alphabet. -/
def b64Alphabet : List Char :=
  "ABCDEFGHIJKLMNOPQRSTUVWXYZabcdefghijklmnopqrstuvwxyz0123456789+/".data

/-- Character for a 6-bit group. -/
def b64Char (n : Nat) : Char := b64Alphabet.getD n 'A'

/-- Base64 encoding of a byte list (`Buffer.from(s).toString('base64')`). -/
def base64Encode : List Nat → String
  | [] => ""
  | [a] =>
    String.mk [b64Char (a / 4), b64Char (a % 4 * 16), '=', '=']
  | [a, b] =>
    String.mk [b64Char (a / 4), b64Char (a % 4 * 16 + b / 16),
               b64Char (b % 16 * 4), '=']
  | a :: b :: c :: rest =>
    String.mk [b64Char (a / 4), b64Char (a % 4 * 16 + b / 16),
               b64Char (b % 16 * 4 + c / 64), b64Char (c % 64)]
      ++ base64Encode rest

/-- UTF-8 bytes of one character. -/
def utf8Char (c : Char) : List Nat :=
  let n := c.toNat
  if n < 0x80 then [n]
  else if n < 0x800 then [0xC0 + n / 64, 0x80 + n % 64]
  else if n < 0x10000 then
    [0xE0 + n / 4096, 0x80 + n / 64 % 64, 0x80 + n % 64]
  else
    [0xF0 + n / 262144, 0x80 + n / 4096 % 64, 0x80 + n / 64 % 64, 0x80 + n % 64]

/-- UTF-8 bytes of a string (`Buffer.from(string)`). -/
def utf8Bytes (s : String) : List Nat :=
  s.data.flatMap utf8Char

namespace RedisClient

/-- `RedisClient.getExpensesCacheKey`: `expenses:<userId>`, suffixed with
`:<base64 of the filter string>` when the filter string is truthy
(non-empty). -/
def getExpensesCacheKey (userId : String) (filters : String) : String :=
  if filters = "" then "expenses:" ++ userId
  else "expenses:" ++ userId ++ ":" ++ base64Encode (utf8Bytes filters)

/-- `RedisClient.getExpenseSummaryCacheKey`: `expense_summary:<userId>`,
suffixed with `:<period>` when a period is given (the resolved dates are
not part of the key). -/
def getExpenseSummaryCacheKey (userId : String) (period : Option String) : String :=
  match period with
  | some p => "expense_summary:" ++ userId ++ ":" ++ p
  | none => "expense_summary:" ++ userId

end RedisClient

/-! ## Date-range resolution (`utils/date-helpers`) -/

/-- Environment facts supplied by the JavaScript runtime: the current time,
the results of the `Date` calendar arithmetic at that time, the date parser
(`new Date(string)` plus the NaN check) and the `Date.toJSON` ISO formatter. -/
structure DateEnv where
  now : Nat
  oneMonthAgo : Nat
  threeMonthsAgo : Nat
  parseDate : String → Option Nat
  dateToJson : Nat → String

/-- `setHours(0,0,0,0)`. -/
def startOfDay (t : Nat) : Nat := t / 86400000 * 86400000

/-- `setHours(23,59,59,999)`. -/
def endOfDay (t : Nat) : Nat := startOfDay t + 86399999

namespace DateHelpers

/-- `DateHelpers.getPastWeekRange`. -/
def getPastWeekRange (env : DateEnv) : Nat × Nat :=
  (startOfDay (env.now - 7 * 86400000), endOfDay env.now)

/-- `DateHelpers.getPastMonthRange`. -/
def getPastMonthRange (env : DateEnv) : Nat × Nat :=
  (startOfDay env.oneMonthAgo, endOfDay env.now)

/-- `DateHelpers.getPast3MonthsRange`. -/
def getPast3MonthsRange (env : DateEnv) : Nat × Nat :=
  (startOfDay env.threeMonthsAgo, endOfDay env.now)

/-- `DateHelpers.getCustomRange`: both bounds must parse; a parsed start
strictly after the parsed end is rejected; on success the start is
normalized to start-of-day, the end to end-of-day. -/
def getCustomRange (env : DateEnv) (s e : String) : Option (Nat × Nat) :=
  match env.parseDate s, env.parseDate e with
  | some sd, some ed =>
    if sd > ed then none else some (startOfDay sd, endOfDay ed)
  | _, _ => none

/-- `DateHelpers.getDateRange`: period dispatch; `custom` without both
bounds, and any other/missing token, resolve to `none` (no filter). -/
def getDateRange (env : DateEnv) (period : Option String)
    (s e : Option String) : Option (Nat × Nat) :=
  match period with
  | some "week" => some (getPastWeekRange env)
  | some "month" => some (getPastMonthRange env)
  | some "3months" => some (getPast3MonthsRange env)
  | some "custom" =>
    match s, e with
    | some ss, some es => getCustomRange env ss es
    | _, _ => none
  | _ => none

end DateHelpers

/-! ## Expense Query & Summary Engine (`services/expense-service`) -/

/-- The public response shape of one expense
(`transformExpenseToResponse`): identifiers stringified, remaining fields
passed through. -/
structure ExpenseResponse where
  id : String
  userId : String
  title : String
  description : Option String
  amount : Int
  category : ExpenseCategory
  createdAt : Nat
  updatedAt : Nat
deriving DecidableEq, Repr

/-- `transformExpenseToResponse` (`models/expense.ts`). -/
def transformExpenseToResponse (e : Expense) : ExpenseResponse :=
  { id := e._id, userId := e.userId, title := e.title,
    description := e.description, amount := e.amount, category := e.category,
    createdAt := e.createdAt, updatedAt := e.updatedAt }

/-- Validated listing/summary query parameters
(`ExpenseQueryParams`; `page`/`limit` arrive as numeric strings already
checked by the validation collaborator, modelled by their numeric values). -/
structure QueryParams where
  period : Option String
  startDate : Option String
  endDate : Option String
  category : Option ExpenseCategory
  page : Option Nat
  limit : Option Nat
deriving Repr

/-- JSON image of an expense response. `JSON.stringify` renders `Date`
fields through `Date.toJSON` (the environment's ISO formatter) and omits
an `undefined` description. -/
def expenseResponseToJson (env : DateEnv) (r : ExpenseResponse) : JVal :=
  .jobj ([("id", .jstr r.id), ("userId", .jstr r.userId),
          ("title", .jstr r.title)]
    ++ (match r.description with
        | some d => [("description", JVal.jstr d)]
        | none => [])
    ++ [("amount", .jnum r.amount),
        ("category", .jstr (categoryName r.category)),
        ("createdAt", .jstr (env.dateToJson r.createdAt)),
        ("updatedAt", .jstr (env.dateToJson r.updatedAt))])

/-- JSON image of a `{expenses, total, page, limit}` listing result. -/
def resultToJson (env : DateEnv) (rs : List ExpenseResponse)
    (total page limit : Nat) : JVal :=
  .jobj [("expenses", .jarr (rs.map (expenseResponseToJson env))),
         ("total", .jnum total), ("page", .jnum page), ("limit", .jnum limit)]

/-- JSON image of an `ExpenseSummary`. -/
def summaryToJson (s : ExpenseSummary) : JVal :=
  .jobj [("totalAmount", .jnum s.totalAmount),
         ("totalCount", .jnum s.totalCount),
         ("categoryBreakdown", .jarr (s.categoryBreakdown.map (fun b =>
           .jobj [("category", .jstr (categoryName b.category)),
                  ("amount", .jnum b.amount), ("count", .jnum b.count)])))]

namespace ExpenseService

/-- `EXPENSE_CACHE_TTL`. -/
def EXPENSE_CACHE_TTL : Nat := 1800

/-- `SUMMARY_CACHE_TTL`. -/
def SUMMARY_CACHE_TTL : Nat := 3600

/-- `JSON.stringify({startDate, endDate, category, limit, offset})` of
`ExpenseService.getExpensesCacheKey`: the five filter fields in that fixed
property order; fields holding `undefined` are omitted by `JSON.stringify`;
`Date` values render through `Date.toJSON`. Category names contain no
characters needing JSON string escapes. -/
def filterString (env : DateEnv) (f : ExpenseFilter) : String :=
  "\x7b" ++ String.intercalate ","
    ((match f.startDate with
      | some d => ["\"startDate\":\"" ++ env.dateToJson d ++ "\""]
      | none => [])
    ++ (match f.endDate with
        | some d => ["\"endDate\":\"" ++ env.dateToJson d ++ "\""]
        | none => [])
    ++ (match f.category with
        | some c => ["\"category\":\"" ++ categoryName c ++ "\""]
        | none => [])
    ++ (match f.limit with
        | some l => ["\"limit\":" ++ toString l]
        | none => [])
    ++ (match f.offset with
        | some o => ["\"offset\":" ++ toString o]
        | none => [])) ++ "\x7d"

/-- `ExpenseService.getExpensesCacheKey`: serialize the filter fields and
delegate to `RedisClient.getExpensesCacheKey`. -/
def getExpensesCacheKey (env : DateEnv) (userId : String) (f : ExpenseFilter) :
    String :=
  RedisClient.getExpensesCacheKey userId (filterString env f)

/-- Step 2 of `getExpenses`/`getExpenseSummary`: resolve the period (only
when one is supplied) through `DateHelpers.getDateRange`. -/
def resolvedRange (env : DateEnv) (q : QueryParams) : Option (Nat × Nat) :=
  if q.period.isSome then
    DateHelpers.getDateRange env q.period q.startDate q.endDate
  else none

/-- Step 3 of `getExpenses`: the `ExpenseFilter` assembled from the resolved
dates, category, `limit` (default 20) and `offset = (page - 1) * limit`
(page default 1). -/
def serviceFilters (env : DateEnv) (userId : String) (q : QueryParams) :
    ExpenseFilter :=
  let dr := resolvedRange env q
  { userId := userId,
    startDate := dr.map (·.1),
    endDate := dr.map (·.2),
    category := q.category,
    limit := some (q.limit.getD 20),
    offset := some ((q.page.getD 1 - 1) * (q.limit.getD 20)) }

/-- The listing cache key `getExpenses` derives for a request. -/
def listKey (env : DateEnv) (userId : String) (q : QueryParams) : String :=
  getExpensesCacheKey env userId (serviceFilters env userId q)

/-- `ExpenseService.getCachedExpenses`: a cache-read failure is caught and
treated as a miss. -/
def getCachedExpenses (redis : RedisState) (k : String) : Option JVal :=
  match getJsonE redis k with
  | .error _ => none
  | .ok v => v

/-- `ExpenseService.cacheExpenses`: a cache-write failure is caught and
treated as a no-op. -/
def cacheExpenses (redis : RedisState) (k : String) (v : JVal) : RedisState :=
  match setJsonE redis k v EXPENSE_CACHE_TTL with
  | .error _ => redis
  | .ok r => r

/-- `ExpenseService.getCachedSummary` (failure ⇒ miss). -/
def getCachedSummary (redis : RedisState) (k : String) : Option JVal :=
  match getJsonE redis k with
  | .error _ => none
  | .ok v => v

/-- `ExpenseService.cacheSummary` (failure ⇒ no-op). -/
def cacheSummary (redis : RedisState) (k : String) (v : JVal) : RedisState :=
  match setJsonE redis k v SUMMARY_CACHE_TTL with
  | .error _ => redis
  | .ok r => r

/-- `ExpenseService.invalidateUserCaches`: pattern-delete every
`expenses:<userId>*` and `expense_summary:<userId>*` key; an unreachable
adapter is caught and logged, leaving the mutation unaffected. -/
def invalidateUserCaches (redis : RedisState) (userId : String) : RedisState :=
  match redis with
  | none => none
  | some c =>
    some (deletePattern (deletePattern c ("expenses:" ++ userId ++ "*"))
      ("expense_summary:" ++ userId ++ "*"))

/-- The cache-miss value of `getExpenses`: read through the Repository,
transform each document to its response shape, and assemble
`{expenses, total, page, limit}` (as its JSON image — the shape the
response is serialized to and the cache stores). -/
def freshExpensesResult (store : List Expense) (env : DateEnv)
    (userId : String) (q : QueryParams) : JVal :=
  let fr := ExpenseRepository.findWithFilters store (serviceFilters env userId q)
  resultToJson env (fr.1.map transformExpenseToResponse) fr.2
    (q.page.getD 1) (q.limit.getD 20)

/-- `ExpenseService.getExpenses`: parse paging, resolve the period, assemble
the filter (the `ObjectId` constructor throws on a structurally invalid
`userId`; the generic catch re-wraps that as `'Failed to get expenses'`
500), derive the cache key, return the cached value on a hit, otherwise
read through the Repository and populate the cache (TTL 1800 s). -/
def getExpenses (store : List Expense) (redis : RedisState) (env : DateEnv)
    (userId : String) (q : QueryParams) :
    Except ApiErr (JVal × RedisState) :=
  if ¬ isValidObjectId userId then .error ⟨"Failed to get expenses", 500⟩
  else
    let key := listKey env userId q
    match getCachedExpenses redis key with
    | some v => .ok (v, redis)
    | none =>
      let v := freshExpensesResult store env userId q
      .ok (v, cacheExpenses redis key v)

/-- The summary cache key `getExpenseSummary` uses: derived from the user
and the period token only. -/
def summaryKey (userId : String) (q : QueryParams) : String :=
  RedisClient.getExpenseSummaryCacheKey userId q.period

/-- `ExpenseService.getExpenseSummary`: resolve the period, derive the
user+period cache key, return the cached value on a hit, otherwise compute
the summary through the Repository (classified repository errors pass
through) and populate the cache (TTL 3600 s). -/
def getExpenseSummary (store : List Expense) (redis : RedisState)
    (env : DateEnv) (userId : String) (q : QueryParams) :
    Except ApiErr (JVal × RedisState) :=
  let dr := resolvedRange env q
  let key := summaryKey userId q
  match getCachedSummary redis key with
  | some v => .ok (v, redis)
  | none =>
    match ExpenseRepository.getSummary store userId (dr.map (·.1)) (dr.map (·.2)) with
    | .error e => .error e
    | .ok s => .ok (summaryToJson s, cacheSummary redis key (summaryToJson s))

/-- `ExpenseService.createExpense`: Repository write first; on success,
transform the created document and invalidate every cached view of the
user before returning. -/
def createExpense (store : List Expense) (redis : RedisState) (env : DateEnv)
    (userId : String) (d : CreateExpenseDto) (insertedId : Option String) :
    Except ApiErr (ExpenseResponse × List Expense × RedisState) :=
  match ExpenseRepository.create store userId d env.now insertedId with
  | .error e => .error e
  | .ok (store', exp) =>
    .ok (transformExpenseToResponse exp, store', invalidateUserCaches redis userId)

/-- `ExpenseService.updateExpense`: a `null` repository result becomes
`ApiError('Expense not found', 404)`; on success the user's caches are
invalidated before returning the transformed document. -/
def updateExpense (store : List Expense) (redis : RedisState) (env : DateEnv)
    (expenseId userId : String) (u : UpdateExpenseDto) :
    Except ApiErr (ExpenseResponse × List Expense × RedisState) :=
  match ExpenseRepository.updateByIdAndUserId store expenseId userId u env.now with
  | (_, none) => .error ⟨"Expense not found", 404⟩
  | (store', some e) =>
    .ok (transformExpenseToResponse e, store', invalidateUserCaches redis userId)

/-- `ExpenseService.deleteExpense`: a `false` repository result becomes
`ApiError('Expense not found', 404)`; on success the user's caches are
invalidated before returning. -/
def deleteExpense (store : List Expense) (redis : RedisState)
    (expenseId userId : String) :
    Except ApiErr (List Expense × RedisState) :=
  match ExpenseRepository.deleteByIdAndUserId store expenseId userId with
  | (_, false) => .error ⟨"Expense not found", 404⟩
  | (store', true) => .ok (store', invalidateUserCaches redis userId)

end ExpenseService

/-! ## Helper lemmas -/

theorem updateFirst_of_all_false {p : Expense → Bool} {upd : Expense → Expense}
    {l : List Expense} (h : ∀ e ∈ l, p e = false) :
    ExpenseRepository.updateFirst p upd l = (l, none) := by
  induction l with
  | nil => rfl
  | cons e es ih =>
    have he : p e = false := h e (List.mem_cons_self e es)
    have ih' := ih (fun x hx => h x (List.mem_cons_of_mem e hx))
    simp [ExpenseRepository.updateFirst, he, ih']

theorem deleteFirst_of_all_false {p : Expense → Bool}
    {l : List Expense} (h : ∀ e ∈ l, p e = false) :
    ExpenseRepository.deleteFirst p l = (l, false) := by
  induction l with
  | nil => rfl
  | cons e es ih =>
    have he : p e = false := h e (List.mem_cons_self e es)
    have ih' := ih (fun x hx => h x (List.mem_cons_of_mem e hx))
    simp [ExpenseRepository.deleteFirst, he, ih']

/-- A concrete runtime environment shared by the concrete instantiations
below: time 0, no parseable dates, a constant ISO formatter. -/
def demoEnv : DateEnv :=
  { now := 0, oneMonthAgo := 0, threeMonthsAgo := 0,
    parseDate := fun _ => none,
    dateToJson := fun _ => "1970-01-01T00:00:00.000Z" }

/-! ## C3 — ownership isolation of update/delete -/

/-- C3. For any two distinct users `A` and `B` and any expense id owned by
`A` (every stored document carrying that id belongs to `A`),
`updateByIdAndUserId` on behalf of `B` returns the not-found signal with the
store untouched, and `deleteByIdAndUserId` returns `false` with the store
untouched — exactly the results produced for a nonexistent id, so the two
cases are indistinguishable. -/
theorem C3_ownership_isolation (store : List Expense) (id A B : String)
    (u : UpdateExpenseDto) (now : Nat) (hAB : A ≠ B)
    (hown : ∀ e ∈ store, e._id = id → e.userId = A) :
    ExpenseRepository.updateByIdAndUserId store id B u now = (store, none)
    ∧ ExpenseRepository.deleteByIdAndUserId store id B = (store, false) := by
  have hp : ∀ e ∈ store,
      (decide (e._id = id) && decide (e.userId = B)) = false := by
    intro e he
    by_cases hid : e._id = id
    · have huser : e.userId = A := hown e he hid
      have : e.userId ≠ B := by rw [huser]; exact hAB
      simp [this]
    · simp [hid]
  constructor
  · unfold ExpenseRepository.updateByIdAndUserId
    by_cases hv : isValidObjectId id ∧ isValidObjectId B
    · simp only [hv, not_true_eq_false, if_false]
      exact updateFirst_of_all_false hp
    · simp [hv]
  · unfold ExpenseRepository.deleteByIdAndUserId
    by_cases hv : isValidObjectId id ∧ isValidObjectId B
    · simp only [hv, not_true_eq_false, if_false]
      exact deleteFirst_of_all_false hp
    · simp [hv]

/-- C3 witness: a concrete store holding one expense of user `A`
and a mutation attempt by a different user `B`. -/
theorem C3_ownership_isolation_witness :
    let A := "aaaaaaaaaaaaaaaaaaaaaaaa"
    let B := "bbbbbbbbbbbbbbbbbbbbbbbb"
    let id := "0123456789abcdef01234567"
    let e : Expense := ⟨id, A, "lunch", none, 12, .groceries, 5, 5⟩
    ExpenseRepository.updateByIdAndUserId [e] id B ⟨some "x", none, none, none⟩ 9
        = ([e], none)
    ∧ ExpenseRepository.deleteByIdAndUserId [e] id B = ([e], false) :=
  C3_ownership_isolation _ _ "aaaaaaaaaaaaaaaaaaaaaaaa" _ _ _
    (by decide) (by intro e he hid; simp at he; simp [he])

/-! ## C9 — error behaviour of Repository.create -/

/-- Concrete creation DTO used by the C9 counterexample and witness. -/
def c9dto : CreateExpenseDto := ⟨"lunch", none, 12, .groceries⟩

/-- C9 counterexample: for a structurally invalid owning-user identifier,
`create` fails with `ApiError('Invalid user ID', 400)` — a client-class
(400) failure, not the server-class (500) `PersistenceError` the claim
asserts for this case. -/
theorem C9_counterexample :
    ExpenseRepository.create [] "not-a-valid-user-id" c9dto 7
        (some "0123456789abcdef01234567")
      = .error ⟨"Invalid user ID", 400⟩
    ∧ (ApiErr.statusCode ⟨"Invalid user ID", 400⟩ ≠ 500) := by
  constructor
  · rfl
  · decide

/-- C9 as amended: `create` fails with the client-class error
`('Invalid user ID', 400)` when the owning-user identifier is structurally
invalid; with the server-class error `('Failed to create expense', 500)`
when the insert reports no insertion id; with the server-class error
`('Failed to retrieve created expense', 500)` when the post-insert read-back
returns nothing (in this embedding: the reported insertion id is not
structurally valid); and otherwise — valid user, reported id valid and
fresh — returns the collection with the new document appended and the fully
materialized record with creation and update timestamps both `now`. -/
theorem C9_create_error_taxonomy (store : List Expense) (userId : String)
    (d : CreateExpenseDto) (now : Nat) :
    (isValidObjectId userId = false →
      ∀ iid, ExpenseRepository.create store userId d now iid
        = .error ⟨"Invalid user ID", 400⟩)
    ∧ (isValidObjectId userId = true →
      ExpenseRepository.create store userId d now none
        = .error ⟨"Failed to create expense", 500⟩)
    ∧ (∀ nid, isValidObjectId userId = true → isValidObjectId nid = false →
      ExpenseRepository.create store userId d now (some nid)
        = .error ⟨"Failed to retrieve created expense", 500⟩)
    ∧ (∀ nid, isValidObjectId userId = true → isValidObjectId nid = true →
      (∀ e ∈ store, e._id ≠ nid) →
      ExpenseRepository.create store userId d now (some nid)
        = .ok (store ++ [⟨nid, userId, d.title, d.description, d.amount,
                          d.category, now, now⟩],
               ⟨nid, userId, d.title, d.description, d.amount,
                d.category, now, now⟩)) := by
  refine ⟨fun hu iid => ?_, fun hu => ?_, fun nid hu hn => ?_, fun nid hu hn hfresh => ?_⟩
  · simp [ExpenseRepository.create, hu]
  · simp [ExpenseRepository.create, hu]
  · simp [ExpenseRepository.create, ExpenseRepository.findById, hu, hn]
  · have hfind : ExpenseRepository.findById
        (store ++ [⟨nid, userId, d.title, d.description, d.amount,
                    d.category, now, now⟩]) nid
        = some ⟨nid, userId, d.title, d.description, d.amount,
                d.category, now, now⟩ := by
      unfold ExpenseRepository.findById
      rw [if_pos hn]
      induction store with
      | nil => simp
      | cons e es ih =>
        have hne : e._id ≠ nid := hfresh e (List.mem_cons_self e es)
        have ih' := ih (fun x hx => hfresh x (List.mem_cons_of_mem e hx))
        simpa [List.find?_cons, hne] using ih'
    simp [ExpenseRepository.create, hu, hfind]

/-- C9 witness: the amended theorem at concrete inputs, one per branch. -/
theorem C9_create_error_taxonomy_witness :
    (ExpenseRepository.create [] "zz" c9dto 7 none
      = .error ⟨"Invalid user ID", 400⟩)
    ∧ (ExpenseRepository.create [] "aaaaaaaaaaaaaaaaaaaaaaaa" c9dto 7 none
      = .error ⟨"Failed to create expense", 500⟩)
    ∧ (ExpenseRepository.create [] "aaaaaaaaaaaaaaaaaaaaaaaa" c9dto 7 (some "bad")
      = .error ⟨"Failed to retrieve created expense", 500⟩)
    ∧ (ExpenseRepository.create [] "aaaaaaaaaaaaaaaaaaaaaaaa" c9dto 7
        (some "0123456789abcdef01234567")
      = .ok ([⟨"0123456789abcdef01234567", "aaaaaaaaaaaaaaaaaaaaaaaa",
               "lunch", none, 12, .groceries, 7, 7⟩],
             ⟨"0123456789abcdef01234567", "aaaaaaaaaaaaaaaaaaaaaaaa",
              "lunch", none, 12, .groceries, 7, 7⟩)) :=
  ⟨(C9_create_error_taxonomy [] "zz" c9dto 7).1 (by decide) none,
   (C9_create_error_taxonomy [] "aaaaaaaaaaaaaaaaaaaaaaaa" c9dto 7).2.1 (by decide),
   (C9_create_error_taxonomy [] "aaaaaaaaaaaaaaaaaaaaaaaa" c9dto 7).2.2.1 "bad"
     (by decide) (by decide),
   (C9_create_error_taxonomy [] "aaaaaaaaaaaaaaaaaaaaaaaa" c9dto 7).2.2.2
     "0123456789abcdef01234567" (by decide) (by decide) (by simp)⟩

/-! ## C10 — malformed caller identifier on the listing read path -/

/-- C10. For a structurally invalid `userId`, `getExpenses` fails with the
generic server-class error `('Failed to get expenses', 500)`: the filter
assembly constructs the `ObjectId` without a validity check, the
constructor's exception reaches the generic handler and is re-wrapped —
never an empty result, never a client-class error. -/
theorem C10_invalid_user_listing (store : List Expense) (redis : RedisState)
    (env : DateEnv) (userId : String) (q : QueryParams)
    (h : isValidObjectId userId = false) :
    ExpenseService.getExpenses store redis env userId q
      = .error ⟨"Failed to get expenses", 500⟩ := by
  simp [ExpenseService.getExpenses, h]

/-- C10 witness: a concrete malformed identifier. -/
theorem C10_invalid_user_listing_witness :
    ExpenseService.getExpenses [] none
      ⟨0, 0, 0, fun _ => none, fun _ => ""⟩ "admin"
      ⟨none, none, none, none, none, none⟩
      = .error ⟨"Failed to get expenses", 500⟩ :=
  C10_invalid_user_listing [] none _ "admin" _ (by decide)

/-! ## C8 — custom date-range resolution and the permissive fallback -/

/-- C8. Resolution of `period=custom` fails (resolves to "no filter") exactly
when a bound is missing, a bound is unparseable, or the parsed start is
after the parsed end; on success the start is normalized to start-of-day and
the end to end-of-day. `getExpenses` with `period=custom` and no bounds
supplied does not fail: it behaves exactly as a request with no period (no
date filter) and succeeds for a valid caller. -/
theorem C8_custom_range (env : DateEnv) :
    (∀ ss es sd ed, env.parseDate ss = some sd → env.parseDate es = some ed →
      DateHelpers.getDateRange env (some "custom") (some ss) (some es)
        = if sd > ed then none else some (startOfDay sd, endOfDay ed))
    ∧ (∀ s e, s = none ∨ e = none →
      DateHelpers.getDateRange env (some "custom") s e = none)
    ∧ (∀ ss es, env.parseDate ss = none ∨ env.parseDate es = none →
      DateHelpers.getDateRange env (some "custom") (some ss) (some es) = none)
    ∧ (∀ store redis userId q, q.period = some "custom" → q.startDate = none →
        q.endDate = none →
      ExpenseService.getExpenses store redis env userId q
        = ExpenseService.getExpenses store redis env userId
            { q with period := none }
      ∧ (isValidObjectId userId = true →
        ∃ r, ExpenseService.getExpenses store redis env userId q = .ok r)) := by
  refine ⟨fun ss es sd ed hsd hed => ?_, fun s e h => ?_,
    fun ss es h => ?_, fun store redis userId q hper hs he => ?_⟩
  · show DateHelpers.getCustomRange env ss es = _
    simp [DateHelpers.getCustomRange, hsd, hed]
  · rcases h with rfl | rfl
    · rfl
    · cases s <;> rfl
  · show DateHelpers.getCustomRange env ss es = _
    rcases h with h | h
    · simp [DateHelpers.getCustomRange, h]
    · cases hss : env.parseDate ss <;>
        simp [DateHelpers.getCustomRange, h, hss]
  · have hdr : ExpenseService.resolvedRange env q = none := by
      unfold ExpenseService.resolvedRange
      rw [hper, hs, he]
      exact rfl
    have hdr' : ExpenseService.resolvedRange env { q with period := none }
        = none := by
      unfold ExpenseService.resolvedRange
      rfl
    have hfilters : ∀ userId', ExpenseService.serviceFilters env userId' q
        = ExpenseService.serviceFilters env userId' { q with period := none } := by
      intro userId'
      unfold ExpenseService.serviceFilters
      rw [hdr, hdr']
    have heq : ExpenseService.getExpenses store redis env userId q
        = ExpenseService.getExpenses store redis env userId
            { q with period := none } := by
      unfold ExpenseService.getExpenses ExpenseService.listKey
        ExpenseService.freshExpensesResult
      rw [hfilters]
    refine ⟨heq, fun hval => ?_⟩
    unfold ExpenseService.getExpenses
    rw [hval]
    simp only [Bool.not_true, Bool.false_eq_true, if_false]
    cases hc : ExpenseService.getCachedExpenses redis
        (ExpenseService.listKey env userId q) with
    | none => exact ⟨_, rfl⟩
    | some v => exact ⟨_, rfl⟩

/-- Concrete environment for the C8 witness: a two-entry date parser. -/
def c8env : DateEnv :=
  { now := 0, oneMonthAgo := 0, threeMonthsAgo := 0,
    parseDate := fun s =>
      if s = "2024-01-01" then some 86400000
      else if s = "2024-01-02" then some 172800000
      else none,
    dateToJson := fun _ => "" }

/-- C8 witness: the resolution rules and the no-bounds fallback at concrete
inputs. -/
theorem C8_custom_range_witness :
    (DateHelpers.getDateRange c8env (some "custom")
        (some "2024-01-01") (some "2024-01-02")
      = if 86400000 > 172800000 then none
        else some (startOfDay 86400000, endOfDay 172800000))
    ∧ DateHelpers.getDateRange c8env (some "custom") none (some "2024-01-01")
      = none
    ∧ DateHelpers.getDateRange c8env (some "custom")
        (some "nonsense") (some "2024-01-01") = none
    ∧ (ExpenseService.getExpenses [] none c8env "aaaaaaaaaaaaaaaaaaaaaaaa"
          ⟨some "custom", none, none, none, none, none⟩
        = ExpenseService.getExpenses [] none c8env "aaaaaaaaaaaaaaaaaaaaaaaa"
            ⟨none, none, none, none, none, none⟩)
    ∧ ∃ r, ExpenseService.getExpenses [] none c8env "aaaaaaaaaaaaaaaaaaaaaaaa"
          ⟨some "custom", none, none, none, none, none⟩ = .ok r :=
  ⟨(C8_custom_range c8env).1 _ _ _ _ (by decide) (by decide),
   (C8_custom_range c8env).2.1 none (some "2024-01-01") (Or.inl rfl),
   (C8_custom_range c8env).2.2.1 _ _ (Or.inl (by decide)),
   ((C8_custom_range c8env).2.2.2 [] none "aaaaaaaaaaaaaaaaaaaaaaaa"
     ⟨some "custom", none, none, none, none, none⟩ rfl rfl rfl).1,
   ((C8_custom_range c8env).2.2.2 [] none "aaaaaaaaaaaaaaaaaaaaaaaa"
     ⟨some "custom", none, none, none, none, none⟩ rfl rfl rfl).2 (by decide)⟩

/-! ## C6 — cache key derivation -/

theorem filterString_ne_empty (env : DateEnv) (f : ExpenseFilter) :
    ExpenseService.filterString env f ≠ "" := by
  unfold ExpenseService.filterString
  intro h
  have h2 := congrArg String.data h
  simp only [String.data_append] at h2
  simp at h2

/-- C6. The listing cache key is `expenses:<userId>` followed by a colon and
the base64 of the UTF-8 bytes of the filter serialization (the JSON object
holding the `startDate`, `endDate`, `category`, `limit`, `offset` fields in
that fixed property order — see `filterString`); filters agreeing on those
five fields produce the identical key. The summary cache key is
`expense_summary:<userId>` suffixed only with the period token: requests
agreeing on the period — whatever their explicit date bounds — share it. -/
theorem C6_cache_keys :
    (∀ env userId f, ExpenseService.getExpensesCacheKey env userId f
        = "expenses:" ++ userId ++ ":"
          ++ base64Encode (utf8Bytes (ExpenseService.filterString env f)))
    ∧ (∀ env userId f₁ f₂, f₁.startDate = f₂.startDate →
        f₁.endDate = f₂.endDate → f₁.category = f₂.category →
        f₁.limit = f₂.limit → f₁.offset = f₂.offset →
        ExpenseService.getExpensesCacheKey env userId f₁
          = ExpenseService.getExpensesCacheKey env userId f₂)
    ∧ (∀ userId p, RedisClient.getExpenseSummaryCacheKey userId (some p)
        = "expense_summary:" ++ userId ++ ":" ++ p)
    ∧ (∀ userId q q', q.period = q'.period →
        ExpenseService.summaryKey userId q
          = ExpenseService.summaryKey userId q') := by
  refine ⟨fun env userId f => ?_, fun env userId f₁ f₂ h1 h2 h3 h4 h5 => ?_,
    fun userId p => rfl, fun userId q q' hp => ?_⟩
  · unfold ExpenseService.getExpensesCacheKey RedisClient.getExpensesCacheKey
    rw [if_neg (filterString_ne_empty env f)]
  · have hfs : ExpenseService.filterString env f₁
        = ExpenseService.filterString env f₂ := by
      unfold ExpenseService.filterString
      rw [h1, h2, h3, h4, h5]
    unfold ExpenseService.getExpensesCacheKey
    rw [hfs]
  · unfold ExpenseService.summaryKey
    rw [hp]

/-- C6 witness: key determinism at concrete filters that agree on the five
serialized fields (differing in the owning-user field), and summary-key
collision at two custom requests with different explicit date bounds. -/
theorem C6_cache_keys_witness :
    (ExpenseService.getExpensesCacheKey demoEnv "aaaaaaaaaaaaaaaaaaaaaaaa"
        ⟨"aaaaaaaaaaaaaaaaaaaaaaaa", some 0, none, some .groceries, some 20, some 0⟩
      = ExpenseService.getExpensesCacheKey demoEnv "aaaaaaaaaaaaaaaaaaaaaaaa"
        ⟨"bbbbbbbbbbbbbbbbbbbbbbbb", some 0, none, some .groceries, some 20, some 0⟩)
    ∧ ExpenseService.summaryKey "aaaaaaaaaaaaaaaaaaaaaaaa"
        ⟨some "custom", some "2024-01-01", some "2024-01-02", none, none, none⟩
      = ExpenseService.summaryKey "aaaaaaaaaaaaaaaaaaaaaaaa"
        ⟨some "custom", some "1999-05-05", some "1999-06-06", none, none, none⟩ :=
  ⟨C6_cache_keys.2.1 demoEnv "aaaaaaaaaaaaaaaaaaaaaaaa" _ _ rfl rfl rfl rfl rfl,
   C6_cache_keys.2.2.2 "aaaaaaaaaaaaaaaaaaaaaaaa" _ _ rfl⟩

/-! ## C1 — summary invariant -/

theorem sum_map_one {α : Type} (l : List α) :
    (l.map fun _ => (1 : ℕ)).sum = l.length := by
  induction l with
  | nil => rfl
  | cons x xs ih => simp [ih, Nat.add_comm]

/-- Summing a quantity fiberwise over a duplicate-free list of keys that
covers a list recovers the sum over the whole list. -/
theorem sum_map_fibers {α κ M : Type} [DecidableEq κ] [AddCommMonoid M]
    (f : α → κ) (g : α → M) :
    ∀ (ks : List κ) (l : List α), ks.Nodup → (∀ x ∈ l, f x ∈ ks) →
      (ks.map (fun c => ((l.filter (fun x => decide (f x = c))).map g).sum)).sum
        = (l.map g).sum := by
  intro ks
  induction ks with
  | nil =>
    intro l _ hcov
    cases l with
    | nil => rfl
    | cons x xs => exact absurd (hcov x (List.mem_cons_self x xs)) (List.not_mem_nil _)
  | cons c ks ih =>
    intro l hk hcov
    rw [List.nodup_cons] at hk
    have hrest : ∀ c' ∈ ks, l.filter (fun x => decide (f x = c'))
        = (l.filter (fun x => !decide (f x = c))).filter
            (fun x => decide (f x = c')) := by
      intro c' hc'
      have hne : c' ≠ c := fun hcc => hk.1 (hcc ▸ hc')
      rw [List.filter_filter]
      apply List.filter_congr
      intro a _
      by_cases hfa : f a = c'
      · simp [hfa, hne]
      · simp [hfa]
    have hcov2 : ∀ x ∈ l.filter (fun x => !decide (f x = c)), f x ∈ ks := by
      intro x hx
      rw [List.mem_filter] at hx
      have hfx : f x ≠ c := by simpa using hx.2
      rcases List.mem_cons.mp (hcov x hx.1) with h | h
      · exact absurd h hfx
      · exact h
    have hperm : (l.filter (fun x => decide (f x = c))
        ++ l.filter (fun x => !decide (f x = c))).Perm l :=
      List.filter_append_perm _ l
    calc ((c :: ks).map
          (fun c => ((l.filter (fun x => decide (f x = c))).map g).sum)).sum
        = ((l.filter (fun x => decide (f x = c))).map g).sum
          + (ks.map (fun c' =>
              ((l.filter (fun x => decide (f x = c'))).map g).sum)).sum := by
          simp
      _ = ((l.filter (fun x => decide (f x = c))).map g).sum
          + (ks.map (fun c' =>
              (((l.filter (fun x => !decide (f x = c))).filter
                  (fun x => decide (f x = c'))).map g).sum)).sum := by
          have hmc : (ks.map (fun c' =>
              ((l.filter (fun x => decide (f x = c'))).map g).sum))
              = ks.map (fun c' =>
                (((l.filter (fun x => !decide (f x = c))).filter
                    (fun x => decide (f x = c'))).map g).sum) :=
            List.map_congr_left (fun c' hc' => by rw [hrest c' hc'])
          rw [hmc]
      _ = ((l.filter (fun x => decide (f x = c))).map g).sum
          + ((l.filter (fun x => !decide (f x = c))).map g).sum := by
          rw [ih _ hk.2 hcov2]
      _ = (l.map g).sum := by
          rw [← List.sum_append, ← List.map_append]
          exact (hperm.map g).sum_eq

theorem sum_map_fibers_length {α κ : Type} [DecidableEq κ]
    (f : α → κ) (ks : List κ) (l : List α) (hk : ks.Nodup)
    (hcov : ∀ x ∈ l, f x ∈ ks) :
    (ks.map (fun c => (l.filter (fun x => decide (f x = c))).length)).sum
      = l.length := by
  have h2 : ks.map (fun c => (l.filter (fun x => decide (f x = c))).length)
      = ks.map (fun c =>
          ((l.filter (fun x => decide (f x = c))).map fun _ => (1 : ℕ)).sum) :=
    List.map_congr_left (fun c _ => (sum_map_one _).symm)
  rw [h2, sum_map_fibers f (fun _ => (1 : ℕ)) ks l hk hcov, sum_map_one]

/-- The category-breakdown list computed by `getSummary` for a match set. -/
def summaryBreakdown (matched : List Expense) : List CategoryBreakdownEntry :=
  (matched.map (·.category)).dedup.map (fun c =>
    { category := c,
      amount := ((matched.filter
        (fun e => decide (e.category = c))).map (·.amount)).sum,
      count := (matched.filter (fun e => decide (e.category = c))).length })

theorem summaryBreakdown_amount_sum (matched : List Expense) :
    ((summaryBreakdown matched).map (·.amount)).sum
      = (matched.map (·.amount)).sum := by
  unfold summaryBreakdown
  rw [List.map_map]
  exact sum_map_fibers (fun e => e.category) (fun e => e.amount) _ matched
    (List.nodup_dedup _) (fun x hx => List.mem_dedup.mpr (List.mem_map_of_mem _ hx))

theorem summaryBreakdown_count_sum (matched : List Expense) :
    ((summaryBreakdown matched).map (·.count)).sum = matched.length := by
  unfold summaryBreakdown
  rw [List.map_map]
  exact sum_map_fibers_length (fun e => e.category) _ matched
    (List.nodup_dedup _) (fun x hx => List.mem_dedup.mpr (List.mem_map_of_mem _ hx))

theorem summaryBreakdown_categories (matched : List Expense) :
    (summaryBreakdown matched).map (·.category)
      = (matched.map (·.category)).dedup := by
  unfold summaryBreakdown
  rw [List.map_map]
  exact (List.map_congr_left fun c _ => rfl).trans (List.map_id _)

/-- C1. For a valid user and any optional date range, `getSummary` succeeds;
on an empty filtered set it returns the all-zero summary with an empty
breakdown, and on a non-empty filtered set the breakdown amounts sum to the
total amount, the breakdown counts sum to the total count, and the breakdown
carries exactly one entry per distinct category present in the filtered
set. -/
theorem C1_summary_invariant (store : List Expense) (userId : String)
    (sd ed : Option Nat) (h : isValidObjectId userId = true) :
    ∃ s, ExpenseRepository.getSummary store userId sd ed = .ok s
      ∧ (store.filter (ExpenseRepository.summaryMatches userId sd ed) = [] →
          s = ⟨0, 0, []⟩)
      ∧ (store.filter (ExpenseRepository.summaryMatches userId sd ed) ≠ [] →
          (s.categoryBreakdown.map (·.amount)).sum = s.totalAmount
          ∧ (s.categoryBreakdown.map (·.count)).sum = s.totalCount
          ∧ s.totalAmount
            = ((store.filter (ExpenseRepository.summaryMatches userId sd ed)).map
                (·.amount)).sum
          ∧ s.totalCount
            = (store.filter (ExpenseRepository.summaryMatches userId sd ed)).length
          ∧ (s.categoryBreakdown.map (·.category)).Nodup
          ∧ (∀ c, c ∈ s.categoryBreakdown.map (·.category)
              ↔ c ∈ (store.filter (ExpenseRepository.summaryMatches userId sd ed)).map
                  (·.category))) := by
  set matched := store.filter (ExpenseRepository.summaryMatches userId sd ed) with hmatched
  by_cases hm : matched = []
  · refine ⟨⟨0, 0, []⟩, ?_, fun _ => rfl, fun hne => absurd hm hne⟩
    unfold ExpenseRepository.getSummary
    rw [h]
    simp [← hmatched, hm]
  · refine ⟨{ totalAmount := (matched.map (·.amount)).sum,
              totalCount := matched.length,
              categoryBreakdown := summaryBreakdown matched },
      ?_, fun heq => absurd heq hm, fun _ => ?_⟩
    · unfold ExpenseRepository.getSummary
      rw [h]
      simp only [Bool.not_true, Bool.false_eq_true, not_false_eq_true, if_true,
        if_false, ← hmatched]
      rw [if_neg (fun hemp => hm (List.isEmpty_iff.mp hemp))]
      rfl
    · refine ⟨summaryBreakdown_amount_sum matched,
        summaryBreakdown_count_sum matched, rfl, rfl, ?_, ?_⟩
      · rw [summaryBreakdown_categories]
        exact List.nodup_dedup _
      · intro c
        rw [summaryBreakdown_categories]
        exact List.mem_dedup

/-- C1 witness: the end-to-end scenario of the specification — amounts
10/20/30 in categories Groceries/Groceries/Electronics. -/
theorem C1_summary_invariant_witness :
    isValidObjectId "aaaaaaaaaaaaaaaaaaaaaaaa" = true
    ∧ ∃ s, ExpenseRepository.getSummary
        [⟨"000000000000000000000001", "aaaaaaaaaaaaaaaaaaaaaaaa", "a", none, 10,
          .groceries, 1, 1⟩,
         ⟨"000000000000000000000002", "aaaaaaaaaaaaaaaaaaaaaaaa", "b", none, 20,
          .groceries, 2, 2⟩,
         ⟨"000000000000000000000003", "aaaaaaaaaaaaaaaaaaaaaaaa", "c", none, 30,
          .electronics, 3, 3⟩]
        "aaaaaaaaaaaaaaaaaaaaaaaa" none none = .ok s
      ∧ ([⟨"000000000000000000000001", "aaaaaaaaaaaaaaaaaaaaaaaa", "a", none, 10,
          .groceries, 1, 1⟩,
         ⟨"000000000000000000000002", "aaaaaaaaaaaaaaaaaaaaaaaa", "b", none, 20,
          .groceries, 2, 2⟩,
         ⟨"000000000000000000000003", "aaaaaaaaaaaaaaaaaaaaaaaa", "c", none, 30,
          .electronics, 3, 3⟩].filter
          (ExpenseRepository.summaryMatches "aaaaaaaaaaaaaaaaaaaaaaaa" none none) = [] →
          s = ⟨0, 0, []⟩)
      ∧ ([⟨"000000000000000000000001", "aaaaaaaaaaaaaaaaaaaaaaaa", "a", none, 10,
          .groceries, 1, 1⟩,
         ⟨"000000000000000000000002", "aaaaaaaaaaaaaaaaaaaaaaaa", "b", none, 20,
          .groceries, 2, 2⟩,
         ⟨"000000000000000000000003", "aaaaaaaaaaaaaaaaaaaaaaaa", "c", none, 30,
          .electronics, 3, 3⟩].filter
          (ExpenseRepository.summaryMatches "aaaaaaaaaaaaaaaaaaaaaaaa" none none) ≠ [] →
          (s.categoryBreakdown.map (·.amount)).sum = s.totalAmount
          ∧ (s.categoryBreakdown.map (·.count)).sum = s.totalCount
          ∧ s.totalAmount = (([⟨"000000000000000000000001",
              "aaaaaaaaaaaaaaaaaaaaaaaa", "a", none, 10, .groceries, 1, 1⟩,
             ⟨"000000000000000000000002", "aaaaaaaaaaaaaaaaaaaaaaaa", "b", none, 20,
              .groceries, 2, 2⟩,
             ⟨"000000000000000000000003", "aaaaaaaaaaaaaaaaaaaaaaaa", "c", none, 30,
              .electronics, 3, 3⟩].filter
              (ExpenseRepository.summaryMatches "aaaaaaaaaaaaaaaaaaaaaaaa" none
                none)).map (·.amount)).sum
          ∧ s.totalCount = ([⟨"000000000000000000000001",
              "aaaaaaaaaaaaaaaaaaaaaaaa", "a", none, 10, .groceries, 1, 1⟩,
             ⟨"000000000000000000000002", "aaaaaaaaaaaaaaaaaaaaaaaa", "b", none, 20,
              .groceries, 2, 2⟩,
             ⟨"000000000000000000000003", "aaaaaaaaaaaaaaaaaaaaaaaa", "c", none, 30,
              .electronics, 3, 3⟩].filter
              (ExpenseRepository.summaryMatches "aaaaaaaaaaaaaaaaaaaaaaaa" none
                none)).length
          ∧ (s.categoryBreakdown.map (·.category)).Nodup
          ∧ (∀ c, c ∈ s.categoryBreakdown.map (·.category)
              ↔ c ∈ ([⟨"000000000000000000000001",
                  "aaaaaaaaaaaaaaaaaaaaaaaa", "a", none, 10, .groceries, 1, 1⟩,
                 ⟨"000000000000000000000002", "aaaaaaaaaaaaaaaaaaaaaaaa", "b",
                  none, 20, .groceries, 2, 2⟩,
                 ⟨"000000000000000000000003", "aaaaaaaaaaaaaaaaaaaaaaaa", "c",
                  none, 30, .electronics, 3, 3⟩].filter
                  (ExpenseRepository.summaryMatches "aaaaaaaaaaaaaaaaaaaaaaaa"
                    none none)).map (·.category))) :=
  ⟨by decide, C1_summary_invariant _ "aaaaaaaaaaaaaaaaaaaaaaaa" none none (by decide)⟩

/-! ## C4 — listing order and pagination determinism -/

/-- First expense of the C4 counterexample (timestamp equal to `c4e2`). -/
def c4e1 : Expense :=
  ⟨"aaaaaaaaaaaaaaaaaaaaaaaa", "0123456789abcdef01234567", "a", none, 1,
   .groceries, 100, 100⟩

/-- Second expense of the C4 counterexample. -/
def c4e2 : Expense :=
  ⟨"bbbbbbbbbbbbbbbbbbbbbbbb", "0123456789abcdef01234567", "b", none, 1,
   .groceries, 100, 100⟩

/-- Filter matching both C4 expenses. -/
def c4f : ExpenseFilter :=
  ⟨"0123456789abcdef01234567", none, none, none, none, none⟩

/-- C4 counterexample: the sort key is only the creation timestamp, so there
is no secondary identifier tie-break. The same two equal-timestamp expenses
come back in both relative orders depending on collection order alone —
run one is not ordered by descending identifier, run two is not ordered by
ascending identifier, so no identifier rule determines the order of equal
timestamps. -/
theorem C4_counterexample :
    (ExpenseRepository.findWithFilters [c4e1, c4e2] c4f).1 = [c4e1, c4e2]
    ∧ (ExpenseRepository.findWithFilters [c4e2, c4e1] c4f).1 = [c4e2, c4e1]
    ∧ c4e1.createdAt = c4e2.createdAt
    ∧ c4e1._id ≠ c4e2._id
    ∧ ([c4e1, c4e2] : List Expense).Perm [c4e2, c4e1]
    ∧ ([c4e1, c4e2] : List Expense) ≠ [c4e2, c4e1]
    ∧ (ExpenseRepository.findWithFilters [c4e1, c4e2] c4f).1
      ≠ (ExpenseRepository.findWithFilters [c4e2, c4e1] c4f).1 := by
  refine ⟨by decide, by decide, by decide, by decide,
    List.Perm.swap c4e2 c4e1 [], by decide, by decide⟩

/-- C4 as amended: `findWithFilters` returns pages ordered by creation
timestamp descending (equal timestamps follow the collection order — no
identifier tie-break); for any fixed filter over a store with pairwise
distinct identifiers and at least 21 matching records, page 1 with limit 20
and page 2 with limit 20 are disjoint and their ordered union equals page 1
with limit 40. -/
theorem C4_pagination (store : List Expense) (f : ExpenseFilter)
    (hids : (store.map (·._id)).Nodup)
    (_hcount : 21 ≤ (store.filter (ExpenseRepository.matchesFilter f)).length) :
    (ExpenseRepository.findWithFilters store
        { f with limit := some 20, offset := some 0 }).1
      ++ (ExpenseRepository.findWithFilters store
        { f with limit := some 20, offset := some 20 }).1
      = (ExpenseRepository.findWithFilters store
        { f with limit := some 40, offset := some 0 }).1
    ∧ (ExpenseRepository.findWithFilters store
        { f with limit := some 20, offset := some 0 }).1.Disjoint
      (ExpenseRepository.findWithFilters store
        { f with limit := some 20, offset := some 20 }).1
    ∧ (ExpenseRepository.findWithFilters store
        { f with limit := some 20, offset := some 0 }).1.Sorted
        ExpenseRepository.createdAtGe
    ∧ (ExpenseRepository.findWithFilters store
        { f with limit := some 20, offset := some 20 }).1.Sorted
        ExpenseRepository.createdAtGe
    ∧ (ExpenseRepository.findWithFilters store
        { f with limit := some 40, offset := some 0 }).1.Sorted
        ExpenseRepository.createdAtGe := by
  have hmf : ∀ a b, ExpenseRepository.matchesFilter
      { f with limit := a, offset := b } = ExpenseRepository.matchesFilter f :=
    fun a b => rfl
  have hp1 : (ExpenseRepository.findWithFilters store
      { f with limit := some 20, offset := some 0 }).1
      = (ExpenseRepository.sortedMatches store f).take 20 := by
    simp [ExpenseRepository.findWithFilters, jsOrNat,
      ExpenseRepository.sortedMatches, hmf]
  have hp2 : (ExpenseRepository.findWithFilters store
      { f with limit := some 20, offset := some 20 }).1
      = ((ExpenseRepository.sortedMatches store f).drop 20).take 20 := by
    simp [ExpenseRepository.findWithFilters, jsOrNat,
      ExpenseRepository.sortedMatches, hmf]
  have hp40 : (ExpenseRepository.findWithFilters store
      { f with limit := some 40, offset := some 0 }).1
      = (ExpenseRepository.sortedMatches store f).take 40 := by
    simp [ExpenseRepository.findWithFilters, jsOrNat,
      ExpenseRepository.sortedMatches, hmf]
  have hnodup : (ExpenseRepository.sortedMatches store f).Nodup := by
    have h1 : store.Nodup := List.Nodup.of_map _ hids
    have h2 : (store.filter (ExpenseRepository.matchesFilter f)).Nodup :=
      List.Nodup.filter _ h1
    exact (List.perm_insertionSort ExpenseRepository.createdAtGe _).nodup_iff.mpr h2
  have hsorted : (ExpenseRepository.sortedMatches store f).Sorted
      ExpenseRepository.createdAtGe :=
    List.sorted_insertionSort ExpenseRepository.createdAtGe _
  refine ⟨?_, ?_, ?_, ?_, ?_⟩
  · rw [hp1, hp2, hp40]
    have h44 : (40 : ℕ) = 20 + 20 := by norm_num
    rw [h44, List.take_add]
  · rw [hp1, hp2]
    intro a ha hb
    exact List.disjoint_take_drop hnodup (le_refl 20) ha
      (List.take_sublist _ _ |>.subset hb)
  · rw [hp1]
    exact List.Pairwise.sublist (List.take_sublist _ _) hsorted
  · rw [hp2]
    exact List.Pairwise.sublist
      ((List.take_sublist _ _).trans (List.drop_sublist _ _)) hsorted
  · rw [hp40]
    exact List.Pairwise.sublist (List.take_sublist _ _) hsorted

/-- Hex digit character for the C4 witness store ids. -/
def hexChar (n : Nat) : Char :=
  if n < 10 then Char.ofNat (48 + n) else Char.ofNat (87 + n)

/-- A store of 21 expenses with pairwise distinct identifiers, all matching
`c4f`. -/
def c4wStore : List Expense :=
  (List.range 21).map (fun i =>
    { _id := String.mk (List.replicate 22 'a' ++ [hexChar (i / 16), hexChar (i % 16)]),
      userId := "0123456789abcdef01234567",
      title := "t", description := none, amount := 1, category := .groceries,
      createdAt := 1000 - i, updatedAt := 1000 - i })

/-- C4 witness: the amended pagination theorem at a concrete 21-record
store. -/
theorem C4_pagination_witness :
    ((c4wStore.map (·._id)).Nodup
      ∧ 21 ≤ (c4wStore.filter (ExpenseRepository.matchesFilter c4f)).length)
    ∧ ((ExpenseRepository.findWithFilters c4wStore
          { c4f with limit := some 20, offset := some 0 }).1
        ++ (ExpenseRepository.findWithFilters c4wStore
          { c4f with limit := some 20, offset := some 20 }).1
        = (ExpenseRepository.findWithFilters c4wStore
          { c4f with limit := some 40, offset := some 0 }).1
      ∧ (ExpenseRepository.findWithFilters c4wStore
          { c4f with limit := some 20, offset := some 0 }).1.Disjoint
        (ExpenseRepository.findWithFilters c4wStore
          { c4f with limit := some 20, offset := some 20 }).1
      ∧ (ExpenseRepository.findWithFilters c4wStore
          { c4f with limit := some 20, offset := some 0 }).1.Sorted
          ExpenseRepository.createdAtGe
      ∧ (ExpenseRepository.findWithFilters c4wStore
          { c4f with limit := some 20, offset := some 20 }).1.Sorted
          ExpenseRepository.createdAtGe
      ∧ (ExpenseRepository.findWithFilters c4wStore
          { c4f with limit := some 40, offset := some 0 }).1.Sorted
          ExpenseRepository.createdAtGe) :=
  ⟨⟨by decide, by decide⟩, C4_pagination c4wStore c4f (by decide) (by decide)⟩

/-! ## Cache and glob-pattern lemmas -/

theorem getEntry_setEntry_self (c : Cache) (k : String) (v : JVal) :
    getEntry (setEntry c k v) k = some v := by
  simp [getEntry, setEntry, List.find?_cons]

theorem patMatch_star (s : List Char) : patMatch ['*'] s = true := by
  induction s with
  | nil => rfl
  | cons a s _ih => simp [patMatch]

theorem patMatch_append_star {p : List Char} (hp : '*' ∉ p) :
    ∀ s, patMatch (p ++ ['*']) s = true ↔ p <+: s := by
  induction p with
  | nil => intro s; simp [patMatch_star]
  | cons c p ih =>
    intro s
    have hc : c ≠ '*' := fun h => hp (h ▸ List.mem_cons_self c p)
    have hp' : '*' ∉ p := fun h => hp (List.mem_cons_of_mem c h)
    cases s with
    | nil =>
      constructor
      · intro h
        rw [List.cons_append, patMatch, if_neg hc] at h
        exact absurd h (by simp)
      · rintro ⟨t, ht⟩
        simp at ht
    | cons a s' =>
      rw [List.cons_append, patMatch, if_neg hc]
      simp only [List.cons_prefix_cons]
      constructor
      · intro h
        have h2 := Bool.and_eq_true_iff.mp h
        exact ⟨by simpa using h2.1, (ih hp' s').mp h2.2⟩
      · rintro ⟨rfl, h2⟩
        simp [(ih hp' s').mpr h2]

theorem getEntry_deletePattern_of_match (c : Cache) (pat k : String)
    (h : patMatch pat.data k.data = true) :
    getEntry (deletePattern c pat) k = none := by
  rw [getEntry, Option.map_eq_none', List.find?_eq_none]
  intro e he
  rw [deletePattern, List.mem_filter] at he
  intro hek
  have : patMatch pat.data e.1.data = true := by
    have hk : e.1 = k := by simpa using hek
    rw [hk]; exact h
  simp [this] at he

theorem getEntry_deletePattern_of_none (c : Cache) (pat k : String)
    (h : getEntry c k = none) :
    getEntry (deletePattern c pat) k = none := by
  rw [getEntry, Option.map_eq_none', List.find?_eq_none]
  rw [getEntry, Option.map_eq_none', List.find?_eq_none] at h
  intro e he
  exact h e (List.mem_filter.mp he).1

theorem star_not_mem_hex (pre : String) (hpre : '*' ∉ pre.data)
    (userId : String) (hu : isValidObjectId userId = true) :
    '*' ∉ (pre ++ userId).data := by
  rw [String.data_append]
  intro hmem
  rcases List.mem_append.mp hmem with h | h
  · exact hpre h
  · have hall := (Bool.and_eq_true_iff.mp hu).2
    have := List.all_eq_true.mp hall _ h
    simp [isHexDigit] at this

/-! ## C5 — cache population round-trip -/

/-- C5. Populating the listing cache on a miss and immediately reading the
same filter back — no intervening mutation — returns exactly the value the
fresh repository read produced: the first call computes the fresh result and
stores it under the filter's key; the second call hits that entry and
returns the stored value verbatim, which equals the fresh uncached result;
and at the adapter level, reading the key just written yields the value just
serialized. -/
theorem C5_cache_roundtrip (store : List Expense) (c : Cache) (env : DateEnv)
    (userId : String) (q : QueryParams)
    (hval : isValidObjectId userId = true)
    (hmiss : getEntry c (ExpenseService.listKey env userId q) = none) :
    ExpenseService.getExpenses store (some c) env userId q
      = .ok (ExpenseService.freshExpensesResult store env userId q,
             some (setEntry c (ExpenseService.listKey env userId q)
               (ExpenseService.freshExpensesResult store env userId q)))
    ∧ ExpenseService.getExpenses store
        (some (setEntry c (ExpenseService.listKey env userId q)
          (ExpenseService.freshExpensesResult store env userId q)))
        env userId q
      = .ok (ExpenseService.freshExpensesResult store env userId q,
             some (setEntry c (ExpenseService.listKey env userId q)
               (ExpenseService.freshExpensesResult store env userId q)))
    ∧ getJsonE (some (setEntry c (ExpenseService.listKey env userId q)
          (ExpenseService.freshExpensesResult store env userId q)))
        (ExpenseService.listKey env userId q)
      = .ok (some (ExpenseService.freshExpensesResult store env userId q)) := by
  have hcached : ExpenseService.getCachedExpenses (some c)
      (ExpenseService.listKey env userId q) = none := by
    simp [ExpenseService.getCachedExpenses, getJsonE, hmiss]
  have hhit : ExpenseService.getCachedExpenses
      (some (setEntry c (ExpenseService.listKey env userId q)
        (ExpenseService.freshExpensesResult store env userId q)))
      (ExpenseService.listKey env userId q)
      = some (ExpenseService.freshExpensesResult store env userId q) := by
    simp [ExpenseService.getCachedExpenses, getJsonE, getEntry_setEntry_self]
  refine ⟨?_, ?_, ?_⟩
  · unfold ExpenseService.getExpenses
    rw [hval]
    simp only [Bool.not_true, Bool.false_eq_true, not_false_eq_true, if_false]
    rw [hcached]
    rfl
  · unfold ExpenseService.getExpenses
    rw [hval]
    simp only [Bool.not_true, Bool.false_eq_true, not_false_eq_true, if_false]
    rw [hhit]
    simp
  · simp [getJsonE, getEntry_setEntry_self]

/-- C5 witness: a concrete miss-then-hit round trip on an empty cache. -/
theorem C5_cache_roundtrip_witness :
    (isValidObjectId "aaaaaaaaaaaaaaaaaaaaaaaa" = true
      ∧ getEntry [] (ExpenseService.listKey demoEnv "aaaaaaaaaaaaaaaaaaaaaaaa"
          ⟨none, none, none, none, none, none⟩) = none)
    ∧ ExpenseService.getExpenses [] (some []) demoEnv "aaaaaaaaaaaaaaaaaaaaaaaa"
        ⟨none, none, none, none, none, none⟩
      = .ok (ExpenseService.freshExpensesResult [] demoEnv
               "aaaaaaaaaaaaaaaaaaaaaaaa" ⟨none, none, none, none, none, none⟩,
             some (setEntry [] (ExpenseService.listKey demoEnv
                 "aaaaaaaaaaaaaaaaaaaaaaaa" ⟨none, none, none, none, none, none⟩)
               (ExpenseService.freshExpensesResult [] demoEnv
                 "aaaaaaaaaaaaaaaaaaaaaaaa" ⟨none, none, none, none, none, none⟩))) :=
  ⟨⟨by decide, rfl⟩,
   (C5_cache_roundtrip [] [] demoEnv "aaaaaaaaaaaaaaaaaaaaaaaa"
     ⟨none, none, none, none, none, none⟩ (by decide) rfl).1⟩

/-! ## Read-path helper lemmas -/

theorem getSummary_ok (store : List Expense) (userId : String)
    (sd ed : Option Nat) (h : isValidObjectId userId = true) :
    ∃ s, ExpenseRepository.getSummary store userId sd ed = .ok s := by
  by_cases hm : (store.filter (ExpenseRepository.summaryMatches userId sd ed)).isEmpty
  · exact ⟨⟨0, 0, []⟩, by
      unfold ExpenseRepository.getSummary
      rw [if_neg (fun hn => hn h)]
      exact if_pos hm⟩
  · exact ⟨_, by
      unfold ExpenseRepository.getSummary
      rw [if_neg (fun hn => hn h)]
      exact if_neg hm⟩

theorem listing_fresh (store : List Expense) (redis : RedisState)
    (env : DateEnv) (userId : String) (q : QueryParams)
    (hval : isValidObjectId userId = true)
    (hmiss : ExpenseService.getCachedExpenses redis
      (ExpenseService.listKey env userId q) = none) :
    ExpenseService.getExpenses store redis env userId q
      = .ok (ExpenseService.freshExpensesResult store env userId q,
             ExpenseService.cacheExpenses redis
               (ExpenseService.listKey env userId q)
               (ExpenseService.freshExpensesResult store env userId q)) := by
  unfold ExpenseService.getExpenses
  rw [if_neg (fun hn => hn hval)]
  simp only [hmiss]

theorem summary_fresh (store : List Expense) (redis : RedisState)
    (env : DateEnv) (userId : String) (q : QueryParams)
    (hval : isValidObjectId userId = true)
    (hmiss : ExpenseService.getCachedSummary redis
      (ExpenseService.summaryKey userId q) = none) :
    ∃ s, ExpenseRepository.getSummary store userId
        ((ExpenseService.resolvedRange env q).map (·.1))
        ((ExpenseService.resolvedRange env q).map (·.2)) = .ok s
      ∧ ExpenseService.getExpenseSummary store redis env userId q
        = .ok (summaryToJson s, ExpenseService.cacheSummary redis
            (ExpenseService.summaryKey userId q) (summaryToJson s)) := by
  obtain ⟨s, hs⟩ := getSummary_ok store userId
    ((ExpenseService.resolvedRange env q).map (·.1))
    ((ExpenseService.resolvedRange env q).map (·.2)) hval
  refine ⟨s, hs, ?_⟩
  unfold ExpenseService.getExpenseSummary
  simp only [hmiss, hs]

/-! ## C7 — cache unavailability is non-fatal -/

/-- C7. With the cache adapter unreachable (every get/set/delete-pattern
raises) and the Repository healthy, every request behaves as with a working
cold cache: a listing read succeeds with the repository-computed result
(read failure = miss, write failure = no-op), a summary read likewise, and
each mutation's outcome — response value and resulting store — is identical
to its outcome with a reachable cache: invalidation failure never fails the
mutation. -/
theorem C7_cache_failure_nonfatal (store : List Expense) (env : DateEnv)
    (userId : String) :
    (∀ q, isValidObjectId userId = true →
      ExpenseService.getExpenses store none env userId q
        = .ok (ExpenseService.freshExpensesResult store env userId q, none)
      ∧ Except.map Prod.fst (ExpenseService.getExpenses store none env userId q)
        = Except.map Prod.fst
            (ExpenseService.getExpenses store (some []) env userId q))
    ∧ (∀ q, isValidObjectId userId = true →
      ∃ s, ExpenseRepository.getSummary store userId
          ((ExpenseService.resolvedRange env q).map (·.1))
          ((ExpenseService.resolvedRange env q).map (·.2)) = .ok s
        ∧ ExpenseService.getExpenseSummary store none env userId q
          = .ok (summaryToJson s, none)
        ∧ Except.map Prod.fst
            (ExpenseService.getExpenseSummary store none env userId q)
          = Except.map Prod.fst
              (ExpenseService.getExpenseSummary store (some []) env userId q))
    ∧ (∀ d iid c, Except.map (fun x => (x.1, x.2.1))
        (ExpenseService.createExpense store none env userId d iid)
        = Except.map (fun x => (x.1, x.2.1))
          (ExpenseService.createExpense store (some c) env userId d iid))
    ∧ (∀ eid u c, Except.map (fun x => (x.1, x.2.1))
        (ExpenseService.updateExpense store none env eid userId u)
        = Except.map (fun x => (x.1, x.2.1))
          (ExpenseService.updateExpense store (some c) env eid userId u))
    ∧ (∀ eid c, Except.map Prod.fst
        (ExpenseService.deleteExpense store none eid userId)
        = Except.map Prod.fst
          (ExpenseService.deleteExpense store (some c) eid userId)) := by
  refine ⟨fun q hval => ⟨?_, ?_⟩, fun q hval => ?_, fun d iid c => ?_,
    fun eid u c => ?_, fun eid c => ?_⟩
  · exact listing_fresh store none env userId q hval rfl
  · rw [listing_fresh store none env userId q hval rfl,
      listing_fresh store (some []) env userId q hval rfl]
    rfl
  · obtain ⟨s, hs, hserv⟩ := summary_fresh store none env userId q hval rfl
    obtain ⟨s', hs', hserv'⟩ := summary_fresh store (some []) env userId q hval rfl
    have hss : s' = s := by
      rw [hs] at hs'
      exact (Except.ok.injEq _ _).mp hs'.symm
    refine ⟨s, hs, hserv, ?_⟩
    rw [hserv, hserv', hss]
    rfl
  · cases hcr : ExpenseRepository.create store userId d env.now iid with
    | error e => simp [ExpenseService.createExpense, hcr]
    | ok r => simp [ExpenseService.createExpense, hcr]; rfl
  · rcases hru : ExpenseRepository.updateByIdAndUserId store eid userId u env.now
      with ⟨st', r⟩
    cases r with
    | none => simp [ExpenseService.updateExpense, hru]
    | some e => simp [ExpenseService.updateExpense, hru]; rfl
  · rcases hrd : ExpenseRepository.deleteByIdAndUserId store eid userId
      with ⟨st', b⟩
    cases b with
    | false => simp [ExpenseService.deleteExpense, hrd]
    | true => simp [ExpenseService.deleteExpense, hrd]; rfl

/-- C7 witness: a concrete request set against an unreachable adapter. -/
theorem C7_cache_failure_nonfatal_witness :
    (isValidObjectId "aaaaaaaaaaaaaaaaaaaaaaaa" = true
      ∧ ExpenseService.getExpenses [] none demoEnv "aaaaaaaaaaaaaaaaaaaaaaaa"
          ⟨none, none, none, none, none, none⟩
        = .ok (ExpenseService.freshExpensesResult [] demoEnv
            "aaaaaaaaaaaaaaaaaaaaaaaa" ⟨none, none, none, none, none, none⟩, none))
    ∧ Except.map (fun x => (x.1, x.2.1))
        (ExpenseService.createExpense [] none demoEnv "aaaaaaaaaaaaaaaaaaaaaaaa"
          c9dto (some "0123456789abcdef01234567"))
      = Except.map (fun x => (x.1, x.2.1))
          (ExpenseService.createExpense [] (some []) demoEnv
            "aaaaaaaaaaaaaaaaaaaaaaaa" c9dto (some "0123456789abcdef01234567")) :=
  ⟨⟨by decide,
    ((C7_cache_failure_nonfatal [] demoEnv "aaaaaaaaaaaaaaaaaaaaaaaa").1
      ⟨none, none, none, none, none, none⟩ (by decide)).1⟩,
   (C7_cache_failure_nonfatal [] demoEnv "aaaaaaaaaaaaaaaaaaaaaaaa").2.2.1
     c9dto (some "0123456789abcdef01234567") []⟩

/-! ## C2 — mutation-triggered invalidation -/

theorem listKey_user_start (env : DateEnv) (userId : String) (q : QueryParams) :
    ("expenses:" ++ userId).data <+: (ExpenseService.listKey env userId q).data := by
  have hkey : ExpenseService.listKey env userId q
      = "expenses:" ++ userId ++ ":" ++ base64Encode (utf8Bytes
          (ExpenseService.filterString env
            (ExpenseService.serviceFilters env userId q))) := by
    unfold ExpenseService.listKey ExpenseService.getExpensesCacheKey
      RedisClient.getExpensesCacheKey
    rw [if_neg (filterString_ne_empty _ _)]
  rw [hkey]
  exact ⟨(":" ++ base64Encode (utf8Bytes (ExpenseService.filterString env
      (ExpenseService.serviceFilters env userId q)))).data,
    by simp [List.append_assoc]⟩

theorem summaryKey_user_start (userId : String) (q : QueryParams) :
    ("expense_summary:" ++ userId).data
      <+: (ExpenseService.summaryKey userId q).data := by
  cases hq : q.period with
  | none =>
    simp only [ExpenseService.summaryKey,
      RedisClient.getExpenseSummaryCacheKey, hq]
    exact List.prefix_refl _
  | some p =>
    simp only [ExpenseService.summaryKey,
      RedisClient.getExpenseSummaryCacheKey, hq]
    exact ⟨(":" ++ p).data, by simp [List.append_assoc]⟩

/-- All cached listing and summary views of a user are gone: no remaining
cache key starts with `expenses:<userId>` or `expense_summary:<userId>`
(vacuously true when the adapter is unreachable and holds no cache). -/
def cachesCleared (userId : String) : RedisState → Prop
  | none => True
  | some c => ∀ e ∈ c, ¬ (("expenses:" ++ userId).data <+: e.1.data)
      ∧ ¬ (("expense_summary:" ++ userId).data <+: e.1.data)

theorem invalidate_cachesCleared (redis : RedisState) (userId : String)
    (hu : isValidObjectId userId = true) :
    cachesCleared userId (ExpenseService.invalidateUserCaches redis userId) := by
  cases redis with
  | none => trivial
  | some c =>
    intro e he
    have hstar1 : '*' ∉ ("expenses:" ++ userId).data :=
      star_not_mem_hex "expenses:" (by decide) userId hu
    have hstar2 : '*' ∉ ("expense_summary:" ++ userId).data :=
      star_not_mem_hex "expense_summary:" (by decide) userId hu
    rw [deletePattern, List.mem_filter] at he
    obtain ⟨he1, hnp2⟩ := he
    rw [deletePattern, List.mem_filter] at he1
    obtain ⟨_, hnp1⟩ := he1
    constructor
    · intro hpre
      have hm : patMatch ("expenses:" ++ userId ++ "*").data e.1.data = true := by
        have hd : ("expenses:" ++ userId ++ "*").data
            = ("expenses:" ++ userId).data ++ ['*'] := by simp
        rw [hd, patMatch_append_star hstar1]
        exact hpre
      rw [Bool.not_eq_true'] at hnp1
      rw [hm] at hnp1
      exact absurd hnp1 (by decide)
    · intro hpre
      have hm : patMatch ("expense_summary:" ++ userId ++ "*").data e.1.data
          = true := by
        have hd : ("expense_summary:" ++ userId ++ "*").data
            = ("expense_summary:" ++ userId).data ++ ['*'] := by simp
        rw [hd, patMatch_append_star hstar2]
        exact hpre
      rw [Bool.not_eq_true'] at hnp2
      rw [hm] at hnp2
      exact absurd hnp2 (by decide)

theorem cleared_listing_miss (redis : RedisState) (env : DateEnv)
    (userId : String) (q : QueryParams) (hc : cachesCleared userId redis) :
    ExpenseService.getCachedExpenses redis
      (ExpenseService.listKey env userId q) = none := by
  cases redis with
  | none => rfl
  | some c =>
    simp only [ExpenseService.getCachedExpenses, getJsonE]
    rw [getEntry, Option.map_eq_none', List.find?_eq_none]
    intro e he hek
    have hk : e.1 = ExpenseService.listKey env userId q := by simpa using hek
    exact (hc e he).1 (hk ▸ listKey_user_start env userId q)

theorem cleared_summary_miss (redis : RedisState) (userId : String)
    (q : QueryParams) (hc : cachesCleared userId redis) :
    ExpenseService.getCachedSummary redis
      (ExpenseService.summaryKey userId q) = none := by
  cases redis with
  | none => rfl
  | some c =>
    simp only [ExpenseService.getCachedSummary, getJsonE]
    rw [getEntry, Option.map_eq_none', List.find?_eq_none]
    intro e he hek
    have hk : e.1 = ExpenseService.summaryKey userId q := by simpa using hek
    exact (hc e he).2 (hk ▸ summaryKey_user_start userId q)

/-- The post-mutation reading contract: every cached view of the user is
cleared, every subsequent listing read for the user computes its result from
the (post-mutation) store through the Repository, and every subsequent
summary read computes its summary from the store through the Repository. -/
def postMutationFresh (env : DateEnv) (userId : String)
    (store' : List Expense) (redis' : RedisState) : Prop :=
  cachesCleared userId redis'
  ∧ (∀ q, ExpenseService.getExpenses store' redis' env userId q
      = .ok (ExpenseService.freshExpensesResult store' env userId q,
             ExpenseService.cacheExpenses redis'
               (ExpenseService.listKey env userId q)
               (ExpenseService.freshExpensesResult store' env userId q)))
  ∧ (∀ q, ∃ s, ExpenseRepository.getSummary store' userId
        ((ExpenseService.resolvedRange env q).map (·.1))
        ((ExpenseService.resolvedRange env q).map (·.2)) = .ok s
      ∧ ExpenseService.getExpenseSummary store' redis' env userId q
        = .ok (summaryToJson s, ExpenseService.cacheSummary redis'
            (ExpenseService.summaryKey userId q) (summaryToJson s)))

theorem postMutationFresh_invalidate (env : DateEnv) (userId : String)
    (store' : List Expense) (redis : RedisState)
    (hu : isValidObjectId userId = true) :
    postMutationFresh env userId store'
      (ExpenseService.invalidateUserCaches redis userId) := by
  have hc := invalidate_cachesCleared redis userId hu
  exact ⟨hc,
    fun q => listing_fresh _ _ env userId q hu
      (cleared_listing_miss _ env userId q hc),
    fun q => summary_fresh _ _ env userId q hu
      (cleared_summary_miss _ userId q hc)⟩

theorem create_ok_valid {store : List Expense} {userId : String}
    {d : CreateExpenseDto} {now : Nat} {iid : Option String}
    {r : List Expense × Expense}
    (h : ExpenseRepository.create store userId d now iid = .ok r) :
    isValidObjectId userId = true := by
  by_contra hv
  rw [Bool.not_eq_true] at hv
  simp [ExpenseRepository.create, hv] at h

theorem update_some_valid {store : List Expense} {id userId : String}
    {u : UpdateExpenseDto} {now : Nat} {st' : List Expense} {e : Expense}
    (h : ExpenseRepository.updateByIdAndUserId store id userId u now
      = (st', some e)) :
    isValidObjectId userId = true := by
  by_contra hv
  rw [Bool.not_eq_true] at hv
  simp [ExpenseRepository.updateByIdAndUserId, hv] at h

theorem delete_true_valid {store : List Expense} {id userId : String}
    {st' : List Expense}
    (h : ExpenseRepository.deleteByIdAndUserId store id userId = (st', true)) :
    isValidObjectId userId = true := by
  by_contra hv
  rw [Bool.not_eq_true] at hv
  simp [ExpenseRepository.deleteByIdAndUserId, hv] at h

/-- C2. After every successful `createExpense`, `updateExpense`, or
`deleteExpense` for a user — and already in the state the mutation returns —
every cache key prefixed `expenses:<userId>` and every key prefixed
`expense_summary:<userId>` has been deleted, so any subsequent listing or
summary read for that user misses the cache and computes its result from the
post-mutation store through the Repository, never from a value cached before
the mutation. -/
theorem C2_mutation_invalidation (env : DateEnv) (userId : String) :
    (∀ store redis d iid resp store' redis',
      ExpenseService.createExpense store redis env userId d iid
        = .ok (resp, store', redis') →
      postMutationFresh env userId store' redis')
    ∧ (∀ store redis eid u resp store' redis',
      ExpenseService.updateExpense store redis env eid userId u
        = .ok (resp, store', redis') →
      postMutationFresh env userId store' redis')
    ∧ (∀ store redis eid store' redis',
      ExpenseService.deleteExpense store redis eid userId
        = .ok (store', redis') →
      postMutationFresh env userId store' redis') := by
  refine ⟨fun store redis d iid resp store' redis' h => ?_,
    fun store redis eid u resp store' redis' h => ?_,
    fun store redis eid store' redis' h => ?_⟩
  · cases hcr : ExpenseRepository.create store userId d env.now iid with
    | error e => simp [ExpenseService.createExpense, hcr] at h
    | ok r =>
      have hu := create_ok_valid hcr
      have hred : redis' = ExpenseService.invalidateUserCaches redis userId := by
        simp [ExpenseService.createExpense, hcr] at h
        exact h.2.2.symm
      rw [hred]
      exact postMutationFresh_invalidate env userId store' redis hu
  · rcases hru : ExpenseRepository.updateByIdAndUserId store eid userId u env.now
      with ⟨st, r⟩
    cases r with
    | none => simp [ExpenseService.updateExpense, hru] at h
    | some e =>
      have hu := update_some_valid hru
      have hred : redis' = ExpenseService.invalidateUserCaches redis userId := by
        simp [ExpenseService.updateExpense, hru] at h
        exact h.2.2.symm
      rw [hred]
      exact postMutationFresh_invalidate env userId store' redis hu
  · rcases hrd : ExpenseRepository.deleteByIdAndUserId store eid userId
      with ⟨st, b⟩
    cases b with
    | false => simp [ExpenseService.deleteExpense, hrd] at h
    | true =>
      have hu := delete_true_valid hrd
      have hred : redis' = ExpenseService.invalidateUserCaches redis userId := by
        simp [ExpenseService.deleteExpense, hrd] at h
        exact h.2.symm
      rw [hred]
      exact postMutationFresh_invalidate env userId store' redis hu

/-- C2 witness: a concrete create against a cache holding a stale listing
entry for the user; the mutation returns with that entry deleted and the
post-mutation reading contract holds. -/
theorem C2_mutation_invalidation_witness :
    (ExpenseService.createExpense []
        (some [("expenses:aaaaaaaaaaaaaaaaaaaaaaaa", JVal.jnum 0)])
        demoEnv "aaaaaaaaaaaaaaaaaaaaaaaa" c9dto
        (some "0123456789abcdef01234567")
      = .ok (⟨"0123456789abcdef01234567", "aaaaaaaaaaaaaaaaaaaaaaaa", "lunch",
              none, 12, .groceries, 0, 0⟩,
             [⟨"0123456789abcdef01234567", "aaaaaaaaaaaaaaaaaaaaaaaa", "lunch",
               none, 12, .groceries, 0, 0⟩],
             some []))
    ∧ postMutationFresh demoEnv "aaaaaaaaaaaaaaaaaaaaaaaa"
        [⟨"0123456789abcdef01234567", "aaaaaaaaaaaaaaaaaaaaaaaa", "lunch",
          none, 12, .groceries, 0, 0⟩]
        (some []) :=
  ⟨rfl,
   (C2_mutation_invalidation demoEnv "aaaaaaaaaaaaaaaaaaaaaaaa").1 []
     (some [("expenses:aaaaaaaaaaaaaaaaaaaaaaaa", JVal.jnum 0)]) c9dto
     (some "0123456789abcdef01234567") _ _ _ rfl⟩

end ExpenseTracker
